import Mathlib

/-
Verification development for the github-pr-analysis repository.

Shallow embedding of the three source files:
  * src/git_commit_analysis.py    -- compute_pr_vs_direct_commit_ratio (lines 196-255)
  * src/analyze_org_repos.py      -- analyze_single_repo (103-226), generate_org_summary (228-285)
  * src/github_pr_metrics.py      -- analyze_pr_metrics (101-166)

Modelling conventions:
  * Git hashes are Nat.  A repository is a list of commits in `git rev-list`
    order (newest first, every commit listed before its parents), each with
    its ordered parent list; reachability is computed by a single forward
    pass over that list, exactly the set `git rev-list <h>` denotes.
  * External fetches (gh / git subprocess calls) are oracle arguments:
    a failed or unparseable response is `none`, a successful one `some v`.
  * Python float arithmetic appears in two roles.  Where a claim depends
    only on order and bound properties that exact and IEEE arithmetic
    share (merge rates, averages, medians), floats are modelled as exact
    rationals (ℚ).  The extrapolation scaling `int(x * (N / k))`, whose
    truncation toward zero makes binary64 rounding observable, is
    modelled bit-exactly: flDiv / flMul / dyadicTrunc implement IEEE
    round-to-nearest-even binary64 division of two integers, integer to
    float conversion, multiplication, and toward-zero truncation, on
    dyadic rationals represented as significand-exponent pairs (normal
    range only: subnormal or overflowing magnitudes are unreachable at
    the counts this program handles).
-/

namespace PrAnalysis

/-- A commit: hash plus ordered parent hashes (first parent = mainline). -/
structure Commit where
  hash : Nat
  parents : List Nat
deriving DecidableEq, Repr

/-- One step of the reachability pass: when the commit itself has already
been reached, its parents become reachable as well. -/
def reachStep (acc : Finset Nat) (c : Commit) : Finset Nat :=
  if c.hash ∈ acc then acc ∪ c.parents.toFinset else acc

/-- The set of commits reachable from hash h, i.e. the output of
`git rev-list h` on a repo listed in reverse-topological order
(git_commit_analysis.py line 206 and the rev-list calls at line 232). -/
def reach (repo : List Commit) (h : Nat) : Finset Nat :=
  repo.foldl reachStep {h}

/-- All commits on the branch: `git rev-list branch` (line 206-211),
`all_commits_set` in the source. -/
def allCommitsSet (repo : List Commit) (branch : Nat) : Finset Nat :=
  reach repo branch

/-- The merge commits reachable from the branch head, in log order:
`git log --merges --pretty=format:"%H" branch` (line 215). -/
def mergeCommitsOn (repo : List Commit) (branch : Nat) : List Commit :=
  repo.filter (fun c => 2 ≤ c.parents.length && decide (c.hash ∈ reach repo branch))

/-- The contribution of one merge commit to the PR set
(git_commit_analysis.py lines 224-234): the parents line
`git rev-list --parents -n 1 m` is `m p1 p2 ...`; when it has at least
three entries (i.e. m has at least two parents) the code takes
parent1 = parents-entry 1 and parent2 = parents-entry 2 only, and adds
`git rev-list parent2 ^parent1`, i.e. reach(p2) minus reach(p1).
Parents after the second are never read. -/
def mergeContribution (repo : List Commit) (m : Commit) : Finset Nat :=
  match m.parents with
  | p1 :: p2 :: _ => reach repo p2 \ reach repo p1
  | _ => ∅

/-- Lines 222-234, pr_commits_set: union of the per-merge contributions.
(An empty rev-list output is skipped in the source, which is the same as
taking a union with the empty set.) -/
def prCommitsSet (repo : List Commit) (branch : Nat) : Finset Nat :=
  (mergeCommitsOn repo branch).foldl (fun acc m => acc ∪ mergeContribution repo m) ∅

/-- Line 236, pr_commits_on_main: PR commits restricted to the branch. -/
def prCommitsOnMain (repo : List Commit) (branch : Nat) : Finset Nat :=
  prCommitsSet repo branch ∩ allCommitsSet repo branch

/-- Line 238, direct_commits. -/
def directCommits (repo : List Commit) (branch : Nat) : Finset Nat :=
  allCommitsSet repo branch \ prCommitsOnMain repo branch

/-- The record returned by compute_pr_vs_direct_commit_ratio
(lines 249-255); the source keys pr_ratio / direct_ratio are named
pr_fraction / direct_fraction here. -/
structure RatioStats where
  total_commits : Nat
  pr_commits : Nat
  direct_commits : Nat
  pr_fraction : ℚ
  direct_fraction : ℚ
deriving DecidableEq, Repr

/-- compute_pr_vs_direct_commit_ratio (lines 196-255); returns none when
`git rev-list branch` produced nothing (line 207-209). -/
def compute_pr_vs_direct_commit_ratio (repo : List Commit) (branch : Nat) :
    Option RatioStats :=
  let all := allCommitsSet repo branch
  if all = ∅ then none
  else
    let pr := prCommitsOnMain repo branch
    let direct := directCommits repo branch
    some { total_commits := all.card
           pr_commits := pr.card
           direct_commits := direct.card
           pr_fraction := (pr.card : ℚ) / all.card
           direct_fraction := (direct.card : ℚ) / all.card }

/-- Concrete octopus-merge history for claim C2.  Hashes: 0 = A (root),
1 = X (child of A), 2 = Y (child of A), 3 = Z (child of Y),
4 = M, an octopus merge with parents [A, X, Z].  Listed newest first. -/
def octoRepo : List Commit :=
  [⟨4, [0, 1, 3]⟩, ⟨1, [0]⟩, ⟨3, [2]⟩, ⟨2, [0]⟩, ⟨0, []⟩]

/-- A pull request as listed by `gh pr list` (analyze_org_repos.py line 123):
the number field and the truthiness of the mergedAt field. -/
structure PullReq where
  number : Nat
  merged : Bool
deriving DecidableEq, Repr

/-- The per-repository metrics record (analyze_org_repos.py lines 126-145).
The date-like fields and default_branch are carried by the surrounding
I/O layer and are not part of any claim; the numeric and name fields are
kept with the source's key names. -/
structure RepoMetrics where
  repo_name : String
  language : String
  stars : Nat
  forks : Nat
  total_prs : Nat
  merged_prs : Nat
  merge_rate : ℚ
  avg_commits_per_pr : ℚ
  median_commits_per_pr : ℚ
  total_pr_commits : Nat
  single_commit_prs : Nat
  small_prs : Nat
  medium_prs : Nat
  large_prs : Nat
deriving DecidableEq, Repr

/-- The zero-initialised metrics dict (lines 126-145). -/
def initMetrics (repo_name language : String) (stars forks : Nat) : RepoMetrics :=
  { repo_name := repo_name, language := language, stars := stars, forks := forks
    total_prs := 0, merged_prs := 0, merge_rate := 0
    avg_commits_per_pr := 0, median_commits_per_pr := 0, total_pr_commits := 0
    single_commit_prs := 0, small_prs := 0, medium_prs := 0, large_prs := 0 }

/-- The merged PRs of a listing: the filter on a set mergedAt field
(analyze_org_repos.py line 160, github_pr_metrics.py line 113). -/
def mergedOf (prs : List PullReq) : List PullReq :=
  prs.filter (·.merged)

/-- Line 168: sample_size = min(20, len(merged_prs)). -/
def sampleSize (merged : List PullReq) : Nat :=
  min 20 merged.length

/-- The sampled PRs: the slice `merged_prs[:sample_size]` (line 172). -/
def sampledPrs (merged : List PullReq) : List PullReq :=
  merged.take (sampleSize merged)

/-- Lines 167-197, commit_counts: for each sampled PR the oracle
`fetch` gives the parsed commit count of `gh pr view <n> --json commits`,
or none when the fetch fails or its output does not parse; failed
fetches contribute no data point. -/
def commitCounts (merged : List PullReq) (fetch : Nat → Option Nat) : List Nat :=
  (sampledPrs merged).filterMap (fun pr => fetch pr.number)

/-- The four PR size categories (lines 140-143 of the metrics dict). -/
inductive SizeBucket
  | single
  | small
  | medium
  | large
deriving DecidableEq, Repr

/-- The categorisation chain of lines 186-194:
count == 1 -> single, elif count <= 3 -> small, elif count <= 10 -> medium,
else -> large. -/
def classifyPr (commit_count : Nat) : SizeBucket :=
  if commit_count = 1 then .single
  else if commit_count ≤ 3 then .small
  else if commit_count ≤ 10 then .medium
  else .large

/-- How many fetched counts fell into bucket b; one increment per fetched
count, mirroring the loop of lines 172-194. -/
def bucketCount (counts : List Nat) (b : SizeBucket) : Nat :=
  counts.countP (fun n => classifyPr n == b)

/-- statistics.mean on a list of counts, as an exact rational. -/
def listMean (l : List Nat) : ℚ :=
  (l.sum : ℚ) / l.length

/-- statistics.median: sort, take the middle element (odd length) or the
mean of the two middle elements (even length).  The source only calls it
on a non-empty list (guarded by `if commit_counts:` at line 203). -/
def listMedian (l : List Nat) : ℚ :=
  let s := l.insertionSort (· ≤ ·)
  if l.length % 2 = 1 then ((s.getD (l.length / 2) 0 : Nat) : ℚ)
  else (((s.getD (l.length / 2 - 1) 0 : Nat) : ℚ) + ((s.getD (l.length / 2) 0 : Nat) : ℚ)) / 2

/-- Round the non-negative ratio p / q to the nearest integer, ties to
even (the IEEE binary64 rounding mode); 0 when q is 0 (unreachable in
the uses below). -/
def roundNE (p q : Nat) : Nat :=
  if q = 0 then 0
  else
    let d := p / q
    let r := p % q
    if 2 * r < q then d
    else if q < 2 * r then d + 1
    else if d % 2 = 0 then d else d + 1

/-- Fuel-driven most-significant-bit position (floor of log2 for n at
least 1, 0 for 0); structural recursion so it reduces in the kernel. -/
def msbAux : Nat → Nat → Nat
  | 0, _ => 0
  | fuel + 1, n => if n < 2 then 0 else msbAux fuel (n / 2) + 1

/-- Most-significant-bit position of n (n itself is always enough fuel,
as each step halves the argument). -/
def msb (n : Nat) : Nat :=
  msbAux n n

/-- The binary64 double nearest to a / b, as a dyadic pair (m, e)
denoting m * 2 ^ e with a 53-bit significand (m may carry to 2 ^ 53 on
round-up; the denoted value is still the correctly rounded one).  This
is CPython's true division of two ints, and with b = 1 its int-to-float
conversion.  Normal range only: subnormal rounding and overflow are
not modelled (both unreachable at this program's magnitudes). -/
def flDiv (a b : Nat) : Nat × Int :=
  if a = 0 ∨ b = 0 then (0, 0)
  else
    let la := msb a
    let lb := msb b
    let bigL : Int := if b * 2 ^ la ≤ a * 2 ^ lb then (la : Int) - lb else (la : Int) - lb - 1
    let e : Int := bigL - 52
    let m := if e ≤ 0 then roundNE (a * 2 ^ (-e).toNat) b else roundNE a (b * 2 ^ e.toNat)
    (m, e)

/-- Round a dyadic value m * 2 ^ e to a 53-bit significand, nearest,
ties to even: the IEEE rounding step after an exact product. -/
def flNorm (m : Nat) (e : Int) : Nat × Int :=
  if m = 0 then (0, 0)
  else
    let l := msb m
    if l ≤ 52 then (m, e)
    else (roundNE m (2 ^ (l - 52)), e + (l - 52))

/-- IEEE binary64 multiplication of two dyadic doubles: exact product,
then rounding of the significand. -/
def flMul (p q : Nat × Int) : Nat × Int :=
  flNorm (p.1 * q.1) (p.2 + q.2)

/-- Truncation toward zero of a non-negative dyadic value, i.e. the
int() conversion applied to the float result. -/
def dyadicTrunc (p : Nat × Int) : Nat :=
  if 0 ≤ p.2 then p.1 * 2 ^ p.2.toNat else p.1 / 2 ^ (-p.2).toNat

/-- Lines 210-214, int(raw * scale_factor) with the float
scale_factor = N / k, modelled bit-exactly: the double nearest N / k
(flDiv n k), multiplied in binary64 by the float conversion of the raw
integer count (flDiv raw 1), truncated toward zero.  This can land one
below the exact truncated product raw * N / k; claim C4's
counterexample exhibits 114 against 115. -/
def floatScaleStat (raw n k : Nat) : Nat :=
  dyadicTrunc (flMul (flDiv raw 1) (flDiv n k))

/-- Lines 151-164: total_prs, merged_prs and merge_rate. -/
def baseMetrics (m0 : RepoMetrics) (prs : List PullReq) : RepoMetrics :=
  { m0 with
    total_prs := prs.length
    merged_prs := (mergedOf prs).length
    merge_rate :=
      if 0 < prs.length then (((mergedOf prs).length : ℚ) / prs.length) * 100 else 0 }

/-- Lines 203-206 plus the bucket increments of 186-194: the raw sample
statistics, recorded when commit_counts is non-empty. -/
def withStats (m : RepoMetrics) (counts : List Nat) : RepoMetrics :=
  { m with
    avg_commits_per_pr := listMean counts
    median_commits_per_pr := listMedian counts
    total_pr_commits := counts.sum
    single_commit_prs := bucketCount counts .single
    small_prs := bucketCount counts .small
    medium_prs := bucketCount counts .medium
    large_prs := bucketCount counts .large }

/-- Lines 208-214: when sample_size < len(merged_prs), scale the total and
each bucket count independently. -/
def withScaling (m : RepoMetrics) (n k : Nat) : RepoMetrics :=
  if k < n then
    { m with
      total_pr_commits := floatScaleStat m.total_pr_commits n k
      single_commit_prs := floatScaleStat m.single_commit_prs n k
      small_prs := floatScaleStat m.small_prs n k
      medium_prs := floatScaleStat m.medium_prs n k
      large_prs := floatScaleStat m.large_prs n k }
  else m

/-- analyze_single_repo (lines 103-226).  prOutput is none when the
`gh pr list` call fails, returns an empty string, or its output does not
parse as JSON (lines 147-149 and 223-224): all three paths leave the
zero-initialised record.  An empty PR list (early return at 155-157)
falls through the same computation to the identical record. -/
def analyze_single_repo (repo_name language : String) (stars forks : Nat)
    (prOutput : Option (List PullReq)) (fetch : Nat → Option Nat) : RepoMetrics :=
  let m0 := initMetrics repo_name language stars forks
  match prOutput with
  | none => m0
  | some prs =>
    let counts := commitCounts (mergedOf prs) fetch
    let m1 := baseMetrics m0 prs
    if counts.isEmpty then m1
    else withScaling (withStats m1 counts) (mergedOf prs).length (sampleSize (mergedOf prs))

/-- Twenty-one merged PRs numbered 0..20, all with mergedAt set; with a sample cap
of 20 this forces extrapolation (claim C6's counterexample input). -/
def prs21 : List PullReq :=
  (List.range 21).map (fun i => ⟨i, true⟩)

/-- Twenty-three merged PRs numbered 0..22; with a sample cap of 20 and
every sampled PR fetching 5 commits this gives sample_total = 100 and
scale_factor = 23 / 20, claim C4's counterexample input. -/
def prs23 : List PullReq :=
  (List.range 23).map (fun i => ⟨i, true⟩)

/-- github_pr_metrics.py line 125: the single-repository deep scan iterates
over the slice `merged_prs[:50]`. -/
def deepSampledPrs (prs : List PullReq) : List PullReq :=
  (mergedOf prs).take 50

/-- github_pr_metrics.py lines 125-141: get_pr_commits returns the empty
list on any fetch or parse failure, so the loop body models it as a plain
count with 0 for failure; `if commits:` keeps only positive counts, and
each kept count is categorised by the same chain as classifyPr. -/
def deepCommitCounts (prs : List PullReq) (fetch : Nat → Nat) : List Nat :=
  ((deepSampledPrs prs).map (fun pr => fetch pr.number)).filter (fun n => 0 < n)

/-- The organization summary as printed by generate_org_summary
(analyze_org_repos.py lines 228-285): one field per printed statistic.
Fields printed only under a guard are Options. -/
structure OrgSummary where
  total_repos : Nat
  repos_with_prs : Nat
  total_prs : Nat
  total_merged : Nat
  org_merge_rate : Option ℚ
  top_languages : List (String × Nat)
  total_single : Nat
  total_small : Nat
  total_medium : Nat
  total_large : Nat
  avg_commits_org : Option ℚ
  most_active : List (String × Nat × Nat)
deriving DecidableEq, Repr

/-- statistics.mean over rationals. -/
def listMeanQ (l : List ℚ) : ℚ :=
  l.sum / l.length

/-- Distinct elements in order of first occurrence (the iteration order of
a Python Counter built from a generator). -/
def firstOccur (l : List String) : List String :=
  l.foldl (fun acc s => if s ∈ acc then acc else acc ++ [s]) []

/-- Descending-count order on (language, count) pairs. -/
def langRel (a b : String × Nat) : Prop :=
  b.2 ≤ a.2

instance : DecidableRel langRel :=
  fun a b => Nat.decLe _ _

/-- Lines 254-258: Counter(language for m in all_metrics if language is
not Unknown).most_common(5).  most_common is a stable descending sort by
count over the counter's first-occurrence iteration order. -/
def topLanguages (all_metrics : List RepoMetrics) : List (String × Nat) :=
  let langs := (all_metrics.map (·.language)).filter (fun s => !(s == "Unknown"))
  let pairs := (firstOccur langs).map (fun s => (s, langs.count s))
  (pairs.insertionSort langRel).take 5

/-- Descending order on total_prs, the sort key of line 282. -/
def rankRel (a b : RepoMetrics) : Prop :=
  b.total_prs ≤ a.total_prs

instance : DecidableRel rankRel :=
  fun a b => Nat.decLe _ _

instance : IsTotal RepoMetrics rankRel :=
  ⟨fun a b => Nat.le_total b.total_prs a.total_prs⟩

instance : IsTrans RepoMetrics rankRel :=
  ⟨fun _ _ _ hab hbc => le_trans hbc hab⟩

/-- Line 282: `sorted(all_metrics, key=lambda x: x['total_prs'],
reverse=True)`.  Python's sorted is the stable sort for this key order;
insertion sort with rankRel is that stable sort (orderedInsert places an
element before the equal-keyed elements inserted before it, which come
later in the input). -/
def sortedByPrs (all_metrics : List RepoMetrics) : List RepoMetrics :=
  all_metrics.insertionSort rankRel

/-- generate_org_summary (lines 228-285) as the record of everything it
prints; none on an empty input list (lines 234-236). -/
def generate_org_summary (all_metrics : List RepoMetrics) : Option OrgSummary :=
  if all_metrics.isEmpty then none
  else
    let total_prs := (all_metrics.map (·.total_prs)).sum
    let total_merged := (all_metrics.map (·.merged_prs)).sum
    let repos_with_data := all_metrics.filter (fun m => decide (0 < m.avg_commits_per_pr))
    some { total_repos := all_metrics.length
           repos_with_prs := (all_metrics.filter (fun m => decide (0 < m.total_prs))).length
           total_prs := total_prs
           total_merged := total_merged
           org_merge_rate :=
             if 0 < total_prs then some (((total_merged : ℚ) / total_prs) * 100) else none
           top_languages := topLanguages all_metrics
           total_single := (all_metrics.map (·.single_commit_prs)).sum
           total_small := (all_metrics.map (·.small_prs)).sum
           total_medium := (all_metrics.map (·.medium_prs)).sum
           total_large := (all_metrics.map (·.large_prs)).sum
           avg_commits_org :=
             if repos_with_data.isEmpty then none
             else some (listMeanQ (repos_with_data.map (·.avg_commits_per_pr)))
           most_active :=
             (((sortedByPrs all_metrics).take 10).filter (fun m => decide (0 < m.total_prs))).map
               (fun m => (m.repo_name, m.total_prs, m.merged_prs)) }

/-- Modelled from the spec (section 4.3, figure (i)): the
organization-weighted average commits per PR, computed from the raw
per-repository sums as the sum of total_pr_commits over the sum of
merged_prs.  This definition follows the spec's words; claim C8 compares
it with what generate_org_summary actually produces. -/
def specWeightedAvgCommitsPerPr (l : List RepoMetrics) : ℚ :=
  (((l.map (·.total_pr_commits)).sum : Nat) : ℚ) / (((l.map (·.merged_prs)).sum : Nat) : ℚ)

/-- Modelled from the spec (section 4.3, figure (ii)): the unweighted mean
of each repository's own average, over the repositories that have one. -/
def specUnweightedMeanOfAverages (l : List RepoMetrics) : Option ℚ :=
  let withData := l.filter (fun m => decide (0 < m.avg_commits_per_pr))
  if withData.isEmpty then none
  else some (listMeanQ (withData.map (·.avg_commits_per_pr)))

/-- A concrete metrics record for claim C8. -/
def repoA : RepoMetrics :=
  { repo_name := "alpha", language := "Python", stars := 1, forks := 0
    total_prs := 4, merged_prs := 2, merge_rate := 50
    avg_commits_per_pr := 5, median_commits_per_pr := 5, total_pr_commits := 10
    single_commit_prs := 0, small_prs := 0, medium_prs := 1, large_prs := 1 }

/-- Identical to repoA except for total_pr_commits (claim C8). -/
def repoB : RepoMetrics :=
  { repoA with total_pr_commits := 20 }

/- ------------------------------------------------------------------ -/
/- Helper lemmas (shared; none of these is a claim theorem).           -/
/- ------------------------------------------------------------------ -/

theorem mem_foldl_union {β : Type} (f : β → Finset Nat) (L : List β) :
    ∀ (acc : Finset Nat) (c : Nat),
      c ∈ L.foldl (fun a m => a ∪ f m) acc ↔ c ∈ acc ∨ ∃ m ∈ L, c ∈ f m := by
  induction L with
  | nil => intro acc c; simp
  | cons x xs ih =>
    intro acc c
    simp only [List.foldl_cons, ih, Finset.mem_union, List.mem_cons]
    constructor
    · rintro ((h | h) | ⟨m, hm, hc⟩)
      · exact Or.inl h
      · exact Or.inr ⟨x, Or.inl rfl, h⟩
      · exact Or.inr ⟨m, Or.inr hm, hc⟩
    · rintro (h | ⟨m, (rfl | hm), hc⟩)
      · exact Or.inl (Or.inl h)
      · exact Or.inl (Or.inr hc)
      · exact Or.inr ⟨m, hm, hc⟩

theorem mem_mergeContribution {repo : List Commit} {m : Commit} {c : Nat} :
    c ∈ mergeContribution repo m ↔
      ∃ p1 p2 rest, m.parents = p1 :: p2 :: rest ∧
        c ∈ reach repo p2 \ reach repo p1 := by
  rcases hm : m.parents with _ | ⟨p1, _ | ⟨p2, rest⟩⟩
  · simp [mergeContribution, hm]
  · simp [mergeContribution, hm]
  · simp only [mergeContribution, hm]
    constructor
    · intro h; exact ⟨p1, p2, rest, rfl, h⟩
    · rintro ⟨q1, q2, qrest, heq, h⟩
      obtain ⟨rfl, rfl, rfl⟩ : p1 = q1 ∧ p2 = q2 ∧ rest = qrest := by
        simpa using heq
      exact h

theorem bucketCount_sum (counts : List Nat) :
    bucketCount counts .single + bucketCount counts .small
        + bucketCount counts .medium + bucketCount counts .large
      = counts.length := by
  induction counts with
  | nil => rfl
  | cons a l ih =>
    simp only [bucketCount, List.countP_cons, List.length_cons] at *
    rcases h : classifyPr a <;> simp [h] <;> omega

theorem floatScaleStat_zero (n k : Nat) : floatScaleStat 0 n k = 0 := by
  simp [floatScaleStat, flDiv, flMul, flNorm, dyadicTrunc]

theorem analyze_base_fields (rn lg : String) (st fo : Nat) (prs : List PullReq)
    (fetch : Nat → Option Nat) :
    (analyze_single_repo rn lg st fo (some prs) fetch).total_prs = prs.length ∧
      (analyze_single_repo rn lg st fo (some prs) fetch).merged_prs
          = (mergedOf prs).length ∧
      (analyze_single_repo rn lg st fo (some prs) fetch).merge_rate
          = if 0 < prs.length
            then (((mergedOf prs).length : ℚ) / prs.length) * 100 else 0 := by
  simp only [analyze_single_repo]
  by_cases hc : (commitCounts (mergedOf prs) fetch).isEmpty <;>
    simp [hc, withScaling, withStats, baseMetrics, initMetrics] <;>
    split_ifs <;> simp

/- ------------------------------------------------------------------ -/
/- Claim theorems.                                                     -/
/- ------------------------------------------------------------------ -/

/-- C1: for every commit history handed to the exact provenance
classifier, the PR-originated set and the direct-originated set form a
strict partition of the full commit set reachable from the branch head:
their union is the full set and their intersection is empty. -/
theorem c1_partition (repo : List Commit) (branch : Nat) :
    prCommitsOnMain repo branch ∪ directCommits repo branch
        = allCommitsSet repo branch ∧
      prCommitsOnMain repo branch ∩ directCommits repo branch = ∅ := by
  constructor
  · exact Finset.union_sdiff_of_subset Finset.inter_subset_right
  · exact Finset.inter_sdiff_self _ _

/-- C2 counterexample: the concrete octopus merge of octoRepo has parents
p1 = 0, p2 = 1, p3 = 3 with reach(p2) minus reach(p1) = the singleton 1
and reach(p3) minus reach(p1) = the pair 2, 3, exactly the configuration
of the claim; yet the PR set does not contain 2 and 3 (they land in the
direct set), refuting the claimed per-non-first-parent contributions. -/
theorem c2_counterexample :
    (octoRepo.head?.map (·.parents) = some [0, 1, 3]) ∧
      reach octoRepo 1 \ reach octoRepo 0 = {1} ∧
      reach octoRepo 3 \ reach octoRepo 0 = {3, 2} ∧
      ¬ ({1, 2, 3} : Finset Nat) ⊆ prCommitsOnMain octoRepo 4 ∧
      (1 : Nat) ∈ prCommitsOnMain octoRepo 4 ∧
      (2 : Nat) ∈ directCommits octoRepo 4 ∧
      (3 : Nat) ∈ directCommits octoRepo 4 := by
  decide

/-- C2 amended: the classifier adds exactly one reachability-difference
contribution per merge commit, taken from the first two parents only: a
commit is in the PR set precisely when some merge commit on the branch
has parent list p1 :: p2 :: rest and the commit lies in reach(p2) minus
reach(p1).  Parents after the second contribute nothing, so commits
reachable only through the third or later parents of an octopus merge
are classified direct. -/
theorem c2_second_parent_only (repo : List Commit) (branch c : Nat) :
    c ∈ prCommitsSet repo branch ↔
      ∃ m ∈ mergeCommitsOn repo branch, ∃ p1 p2 rest,
        m.parents = p1 :: p2 :: rest ∧ c ∈ reach repo p2 \ reach repo p1 := by
  unfold prCommitsSet
  rw [mem_foldl_union]
  simp only [Finset.not_mem_empty, false_or, mem_mergeContribution]

/-- C3: both estimators take their sample as the deterministic
prefix of the ordered merged-PR list of size min(cap, N): the
cross-repository scan (analyze_org_repos.py) with cap 20 and the
single-repository deep scan (github_pr_metrics.py) with cap 50.  The
prefix property is stated as sample ++ remainder = full list. -/
theorem c3_sampling (merged prs : List PullReq) :
    sampledPrs merged = merged.take (min 20 merged.length) ∧
      (sampledPrs merged).length = min 20 merged.length ∧
      sampledPrs merged ++ merged.drop (sampleSize merged) = merged ∧
      deepSampledPrs prs = (mergedOf prs).take (min 50 (mergedOf prs).length) ∧
      (deepSampledPrs prs).length = min 50 (mergedOf prs).length ∧
      deepSampledPrs prs ++ (mergedOf prs).drop 50 = mergedOf prs := by
  refine ⟨rfl, ?_, ?_, ?_, ?_, ?_⟩
  · simp [sampledPrs, sampleSize]
  · exact List.take_append_drop _ _
  · rw [deepSampledPrs, ← List.take_length (l := mergedOf prs), List.take_take,
      List.take_length]
  · simp [deepSampledPrs]
  · exact List.take_append_drop _ _

/-- C5 counterexample: a fetched commit count of 0 (the gh response
parses but carries an empty commits list, analyze_org_repos.py line 182)
is classified small, although the claim reserves the small bucket for
counts 2 through 3. -/
theorem c5_counterexample :
    ¬ ((classifyPr 0 = SizeBucket.small) ↔ (2 ≤ 0 ∧ 0 ≤ 3)) := by
  decide

/-- C5 amended: for every fetched commit count of at least 1 the
classification is exactly the claimed four-way disjoint bucketing:
single for exactly 1, small for 2-3, medium for 4-10, large for 11 and
above.  A fetched count of 0 is additionally classified small by the
cross-repository scan (and skipped by the deep scan's commits guard). -/
theorem c5_buckets (n : Nat) (h : 1 ≤ n) :
    (classifyPr n = SizeBucket.single ↔ n = 1) ∧
      (classifyPr n = SizeBucket.small ↔ 2 ≤ n ∧ n ≤ 3) ∧
      (classifyPr n = SizeBucket.medium ↔ 4 ≤ n ∧ n ≤ 10) ∧
      (classifyPr n = SizeBucket.large ↔ 11 ≤ n) := by
  unfold classifyPr
  refine ⟨?_, ?_, ?_, ?_⟩ <;> split_ifs with h1 h2 h3 <;> simp <;> omega

/-- C5 witness: the amended bucketing theorem applied at the concrete
count 5, which lands in the medium bucket. -/
theorem c5_witness :
    1 ≤ 5 ∧
      ((classifyPr 5 = SizeBucket.single ↔ 5 = 1) ∧
        (classifyPr 5 = SizeBucket.small ↔ 2 ≤ 5 ∧ 5 ≤ 3) ∧
        (classifyPr 5 = SizeBucket.medium ↔ 4 ≤ 5 ∧ 5 ≤ 10) ∧
        (classifyPr 5 = SizeBucket.large ↔ 11 ≤ 5)) :=
  ⟨by decide, c5_buckets 5 (by decide)⟩

/-- C7: when the PR listing fetch fails entirely, analyze_single_repo
still returns a complete RepositoryMetrics record, with every PR-derived
field zero: total_prs, merged_prs, merge_rate, the commit statistics and
all four bucket counts. -/
theorem c7_listing_failure_zeroed (repo_name language : String) (stars forks : Nat)
    (fetch : Nat → Option Nat) :
    (analyze_single_repo repo_name language stars forks none fetch).total_prs = 0 ∧
      (analyze_single_repo repo_name language stars forks none fetch).merged_prs = 0 ∧
      (analyze_single_repo repo_name language stars forks none fetch).merge_rate = 0 ∧
      (analyze_single_repo repo_name language stars forks none fetch).avg_commits_per_pr = 0 ∧
      (analyze_single_repo repo_name language stars forks none fetch).median_commits_per_pr = 0 ∧
      (analyze_single_repo repo_name language stars forks none fetch).total_pr_commits = 0 ∧
      (analyze_single_repo repo_name language stars forks none fetch).single_commit_prs = 0 ∧
      (analyze_single_repo repo_name language stars forks none fetch).small_prs = 0 ∧
      (analyze_single_repo repo_name language stars forks none fetch).medium_prs = 0 ∧
      (analyze_single_repo repo_name language stars forks none fetch).large_prs = 0 := by
  refine ⟨rfl, rfl, rfl, rfl, rfl, rfl, rfl, rfl, rfl, rfl⟩

set_option maxRecDepth 40000 in
/-- C4 counterexample: 23 merged PRs, sample of 20, every sampled PR
fetching 5 commits, so sample_total = 100 and scale_factor = 23 / 20.
The double nearest 23 / 20 lies below 1.15 by 0.4 units in the last
place, so the binary64 product 100 * float(23 / 20) rounds to just
under 115 and int() truncates it to 114, while the claimed
sample_total * (N / k) truncated toward zero is 115. -/
theorem c4_counterexample :
    sampleSize (mergedOf prs23) < (mergedOf prs23).length ∧
      (commitCounts (mergedOf prs23) (fun _ => some 5)).sum = 100 ∧
      (mergedOf prs23).length = 23 ∧
      sampleSize (mergedOf prs23) = 20 ∧
      (analyze_single_repo ("r") ("lang") 0 0 (some prs23)
          (fun _ => some 5)).total_pr_commits = 114 ∧
      100 * 23 / 20 = 115 := by
  decide

/-- C4 amended: when the sample size k is strictly below the merged-PR
population N, the extrapolated total is int(sample_total * (N / k))
computed in IEEE binary64 arithmetic -- the double nearest N / k,
multiplied by the float conversion of the raw count, truncated toward
zero (floatScaleStat) -- which can land one below the exact truncated
product (114 against 115 at sample_total = 100, N = 23, k = 20); each
of the four bucket counts is independently scaled the same way, and
when k is not below N (so k = N, as k = min(20, N) never exceeds N) no
scaling is applied and the reported figures are the raw sample figures
exactly. -/
theorem c4_float_extrapolation (rn lg : String) (st fo : Nat) (prs : List PullReq)
    (fetch : Nat → Option Nat) :
    ((analyze_single_repo rn lg st fo (some prs) fetch).total_pr_commits
        = if sampleSize (mergedOf prs) < (mergedOf prs).length
          then floatScaleStat (commitCounts (mergedOf prs) fetch).sum
                (mergedOf prs).length (sampleSize (mergedOf prs))
          else (commitCounts (mergedOf prs) fetch).sum) ∧
      ((analyze_single_repo rn lg st fo (some prs) fetch).single_commit_prs
        = if sampleSize (mergedOf prs) < (mergedOf prs).length
          then floatScaleStat (bucketCount (commitCounts (mergedOf prs) fetch) .single)
                (mergedOf prs).length (sampleSize (mergedOf prs))
          else bucketCount (commitCounts (mergedOf prs) fetch) .single) ∧
      ((analyze_single_repo rn lg st fo (some prs) fetch).small_prs
        = if sampleSize (mergedOf prs) < (mergedOf prs).length
          then floatScaleStat (bucketCount (commitCounts (mergedOf prs) fetch) .small)
                (mergedOf prs).length (sampleSize (mergedOf prs))
          else bucketCount (commitCounts (mergedOf prs) fetch) .small) ∧
      ((analyze_single_repo rn lg st fo (some prs) fetch).medium_prs
        = if sampleSize (mergedOf prs) < (mergedOf prs).length
          then floatScaleStat (bucketCount (commitCounts (mergedOf prs) fetch) .medium)
                (mergedOf prs).length (sampleSize (mergedOf prs))
          else bucketCount (commitCounts (mergedOf prs) fetch) .medium) ∧
      ((analyze_single_repo rn lg st fo (some prs) fetch).large_prs
        = if sampleSize (mergedOf prs) < (mergedOf prs).length
          then floatScaleStat (bucketCount (commitCounts (mergedOf prs) fetch) .large)
                (mergedOf prs).length (sampleSize (mergedOf prs))
          else bucketCount (commitCounts (mergedOf prs) fetch) .large) := by
  simp only [analyze_single_repo]
  by_cases hc : (commitCounts (mergedOf prs) fetch).isEmpty
  · have h0 : commitCounts (mergedOf prs) fetch = [] := by
      simpa [List.isEmpty_iff] using hc
    simp [hc, h0, baseMetrics, initMetrics, bucketCount, floatScaleStat_zero]
  · simp only [hc, Bool.false_eq_true, if_false, withScaling, withStats]
    split_ifs with hk <;> simp

set_option maxRecDepth 40000 in
/-- C6 counterexample: 21 merged PRs, a sample of 20, every sampled PR
fetching one commit.  All 20 determined PRs land in the single bucket;
extrapolation scales that bucket to 20 * 21 / 20 = 21, so the bucket
counts of the produced record sum to 21, not to the 20 sampled PRs whose
commit count was determined. -/
theorem c6_counterexample :
    (analyze_single_repo ("r") ("lang") 0 0 (some prs21) (fun _ => some 1)).single_commit_prs
          + (analyze_single_repo ("r") ("lang") 0 0 (some prs21) (fun _ => some 1)).small_prs
          + (analyze_single_repo ("r") ("lang") 0 0 (some prs21) (fun _ => some 1)).medium_prs
          + (analyze_single_repo ("r") ("lang") 0 0 (some prs21) (fun _ => some 1)).large_prs
        ≠ (commitCounts (mergedOf prs21) (fun _ => some 1)).length := by
  decide

/-- C6 amended: before extrapolation the bucket counts always sum to the
number of sampled PRs whose commit count was determined; in the produced
record this survives exactly when no extrapolation occurs, i.e. when the
merged-PR population is within the sample cap of 20 (then every merged
PR is sampled), and never degrades to the total PR count.  When the
population exceeds the cap the four scaled buckets sum to roughly the
merged population instead. -/
theorem c6_bucket_sum (rn lg : String) (st fo : Nat) (prs : List PullReq)
    (fetch : Nat → Option Nat) (h : (mergedOf prs).length ≤ 20) :
    (analyze_single_repo rn lg st fo (some prs) fetch).single_commit_prs
          + (analyze_single_repo rn lg st fo (some prs) fetch).small_prs
          + (analyze_single_repo rn lg st fo (some prs) fetch).medium_prs
          + (analyze_single_repo rn lg st fo (some prs) fetch).large_prs
        = (commitCounts (mergedOf prs) fetch).length := by
  have hk : ¬ sampleSize (mergedOf prs) < (mergedOf prs).length := by
    simp only [sampleSize]
    omega
  simp only [analyze_single_repo]
  by_cases hc : (commitCounts (mergedOf prs) fetch).isEmpty
  · have h0 : commitCounts (mergedOf prs) fetch = [] := by
      simpa [List.isEmpty_iff] using hc
    simp [hc, h0, baseMetrics, initMetrics]
  · simp only [hc, Bool.false_eq_true, if_false, withScaling, hk, withStats]
    exact bucketCount_sum _

/-- C6 witness: the amended sum law applied to two merged PRs fetching 1
and 2 commits; both are determined, one lands in single, one in small,
and the bucket counts sum to 2. -/
theorem c6_witness :
    (mergedOf [(⟨1, true⟩ : PullReq), ⟨2, true⟩]).length ≤ 20 ∧
      (analyze_single_repo ("r") ("l") 0 0 (some [⟨1, true⟩, ⟨2, true⟩])
              (fun n => some n)).single_commit_prs
          + (analyze_single_repo ("r") ("l") 0 0 (some [⟨1, true⟩, ⟨2, true⟩])
              (fun n => some n)).small_prs
          + (analyze_single_repo ("r") ("l") 0 0 (some [⟨1, true⟩, ⟨2, true⟩])
              (fun n => some n)).medium_prs
          + (analyze_single_repo ("r") ("l") 0 0 (some [⟨1, true⟩, ⟨2, true⟩])
              (fun n => some n)).large_prs
        = (commitCounts (mergedOf [⟨1, true⟩, ⟨2, true⟩]) (fun n => some n)).length :=
  ⟨by decide, c6_bucket_sum ("r") ("l") 0 0 [⟨1, true⟩, ⟨2, true⟩] (fun n => some n) (by decide)⟩

/-- C10: every record returned by analyze_single_repo has merged_prs at
most total_prs (the merged PRs are a filter of the listed PRs) and a
merge rate between 0 and 100. -/
theorem c10_rate_bounds (rn lg : String) (st fo : Nat)
    (prOutput : Option (List PullReq)) (fetch : Nat → Option Nat) :
    (analyze_single_repo rn lg st fo prOutput fetch).merged_prs
        ≤ (analyze_single_repo rn lg st fo prOutput fetch).total_prs ∧
      0 ≤ (analyze_single_repo rn lg st fo prOutput fetch).merge_rate ∧
      (analyze_single_repo rn lg st fo prOutput fetch).merge_rate ≤ 100 := by
  cases prOutput with
  | none =>
    refine ⟨le_refl _, le_refl _, ?_⟩
    norm_num [analyze_single_repo, initMetrics]
  | some prs =>
    obtain ⟨h1, h2, h3⟩ := analyze_base_fields rn lg st fo prs fetch
    rw [h1, h2, h3]
    refine ⟨?_, ?_, ?_⟩
    · exact List.length_filter_le _ _
    · split_ifs with hp
      · positivity
      · exact le_refl _
    · split_ifs with hp
      · have hle : ((mergedOf prs).length : ℚ) / prs.length ≤ 1 := by
          rw [div_le_one (by exact_mod_cast hp)]
          exact_mod_cast List.length_filter_le _ _
        calc ((mergedOf prs).length : ℚ) / prs.length * 100
            ≤ 1 * 100 := by
              have h100 : (0 : ℚ) ≤ 100 := by norm_num
              exact mul_le_mul_of_nonneg_right hle h100
          _ = 100 := one_mul 100
      · norm_num

/-- C8 counterexample: two single-repository inputs that differ only in
total_pr_commits produce identical summaries, yet have different
organization-weighted averages (10/2 versus 20/2); hence the weighted
average of the claim is not derivable from the aggregator's output, and
the aggregator does not produce two distinct average figures. -/
theorem c8_counterexample :
    generate_org_summary [repoA] = generate_org_summary [repoB] ∧
      specWeightedAvgCommitsPerPr [repoA] ≠ specWeightedAvgCommitsPerPr [repoB] := by
  constructor
  · simp [generate_org_summary, repoA, repoB, topLanguages, firstOccur,
      sortedByPrs, listMeanQ]
  · simp only [specWeightedAvgCommitsPerPr, repoA, repoB]
    norm_num

/-- C8 amended: the aggregator produces exactly one average-commits-per-PR
figure, the unweighted mean of each repository's own average taken over
the repositories whose average is positive; the organization-weighted
average from raw per-repository sums is not computed and (per the
counterexample) not derivable from the aggregator's output. -/
theorem c8_unweighted_only (l : List RepoMetrics) :
    Option.map (fun s => s.avg_commits_org) (generate_org_summary l)
      = if l.isEmpty then none else some (specUnweightedMeanOfAverages l) := by
  unfold generate_org_summary specUnweightedMeanOfAverages
  split_ifs with h <;> simp

/-- C9: the aggregator's ranking sorts repositories by total_prs in
descending order (rankRel holds pairwise), the ranking is a permutation
of the input, and repositories with any given total_prs value keep their
original relative input order (the stable-sort property, stated as
filter preservation). -/
theorem c9_ranking_stable (l : List RepoMetrics) :
    List.Sorted rankRel (sortedByPrs l) ∧
      List.Perm (sortedByPrs l) l ∧
      ∀ v : Nat,
        (sortedByPrs l).filter (fun m => decide (m.total_prs = v))
          = l.filter (fun m => decide (m.total_prs = v)) := by
  refine ⟨List.sorted_insertionSort rankRel l, List.perm_insertionSort rankRel l, ?_⟩
  intro v
  have hpair : (l.filter (fun m => decide (m.total_prs = v))).Pairwise rankRel := by
    apply List.pairwise_of_forall_mem_list
    intro a ha b hb
    have ha' : a.total_prs = v := of_decide_eq_true (List.mem_filter.mp ha).2
    have hb' : b.total_prs = v := of_decide_eq_true (List.mem_filter.mp hb).2
    unfold rankRel
    omega
  have h1 : List.Sublist (l.filter (fun m => decide (m.total_prs = v))) (sortedByPrs l) :=
    List.sublist_insertionSort hpair (List.filter_sublist l)
  have h2 : List.Sublist
      ((l.filter (fun m => decide (m.total_prs = v))).filter
        (fun m => decide (m.total_prs = v)))
      ((sortedByPrs l).filter (fun m => decide (m.total_prs = v))) :=
    h1.filter _
  have hself : (l.filter (fun m => decide (m.total_prs = v))).filter
        (fun m => decide (m.total_prs = v))
      = l.filter (fun m => decide (m.total_prs = v)) := by
    rw [List.filter_eq_self]
    intro a ha
    exact (List.mem_filter.mp ha).2
  rw [hself] at h2
  have hperm : List.Perm ((sortedByPrs l).filter (fun m => decide (m.total_prs = v)))
      (l.filter (fun m => decide (m.total_prs = v))) :=
    (List.perm_insertionSort rankRel l).filter _
  exact (h2.eq_of_length hperm.length_eq.symm).symm

end PrAnalysis
